import Mathlib

/-!
Verification of the TravelPoint conversational-agent runtime (backend
`aiService` module, MCP-enabled variant).  The definitions below are a
shallow embedding of the TypeScript source: text is modelled as `List Char`
(one entry per UTF-16 unit / code point), `JSON.parse` as a fuel-indexed
recursive-descent parser over the JSON grammar, and the network / subprocess
boundaries (`hf.chatCompletion`, `bookingTools.*`, `mcpClient.callTool`) as
explicit environments of `Except`-valued oracles, so that a thrown JS
exception is an `Except.error` and the `try`/`catch` structure of the
orchestrator is translated literally.
-/

namespace TravelPoint

/-- Whitespace accepted between tokens by the JSON grammar (`JSON.parse`). -/
def isJsonWs (c : Char) : Bool :=
  c = ' ' || c = '\t' || c = '\n' || c = '\r'

/-- JavaScript whitespace: the class matched by regex `\s` and stripped by
`String.prototype.trim` (ASCII whitespace plus the Unicode space
characters). -/
def isJsWs (c : Char) : Bool :=
  c = ' ' || c = '\t' || c = '\n' || c = '\r' ||
  c.toNat = 0x0b || c.toNat = 0x0c || c.toNat = 0xa0 || c.toNat = 0x1680 ||
  (0x2000 ≤ c.toNat && c.toNat ≤ 0x200a) ||
  c.toNat = 0x2028 || c.toNat = 0x2029 || c.toNat = 0x202f ||
  c.toNat = 0x205f || c.toNat = 0x3000 || c.toNat = 0xfeff

/-- One pass of the global regex replacement `text.replace(/PAT\s*)/g, "")`:
scan left to right; at a match, delete the pattern together with the greedy
run of following whitespace and resume after it.  The fuel argument is the
input length; each step consumes at least one character. -/
def stripPatWs (pat : List Char) : Nat → List Char → List Char
  | 0, l => l
  | _ + 1, [] => []
  | fuel + 1, c :: rest =>
    if pat.isPrefixOf (c :: rest) then
      stripPatWs pat fuel (((c :: rest).drop pat.length).dropWhile isJsWs)
    else
      c :: stripPatWs pat fuel rest

/-- `text.replace(/\r\n/g, "\n")`. -/
def crlfToLf : List Char → List Char
  | [] => []
  | '\r' :: '\n' :: rest => '\n' :: crlfToLf rest
  | c :: rest => c :: crlfToLf rest

def fenceJson : List Char := "```json".data

def fenceBare : List Char := "```".data

/-- A C0 control character or DEL, the class removed by the source's
`replace(/[\x00-\x1F\x7F]/g, "")`. -/
def isCtl (c : Char) : Bool :=
  c.toNat ≤ 0x1f || c.toNat = 0x7f

/-- The cleaning pipeline at the top of `extractJson`: strip ```json fences,
then bare ``` fences, normalize CRLF, remove control characters, trim. -/
def cleanText (l : List Char) : List Char :=
  let s1 := stripPatWs fenceJson l.length l
  let s2 := stripPatWs fenceBare s1.length s1
  let s3 := crlfToLf s2
  let s4 := s3.filter (fun c => !(isCtl c))
  ((s4.dropWhile isJsWs).reverse.dropWhile isJsWs).reverse

/-- JSON values as produced by `JSON.parse`.  Numbers keep the parsed lexeme
components (sign, integer digits, fraction digits, signed exponent); objects
are insertion-ordered key/value lists with unique keys (later duplicate keys
overwrite earlier ones, as JavaScript object construction does). -/
inductive Json where
  | null
  | bool (b : Bool)
  | num (neg : Bool) (ip : List Nat) (fp : List Nat) (ex : Int)
  | str (s : String)
  | arr (elems : List Json)
  | obj (members : List (String × Json))
deriving Repr

def hexVal (c : Char) : Option Nat :=
  let n := c.toNat
  if 48 ≤ n && n ≤ 57 then some (n - 48)
  else if 97 ≤ n && n ≤ 102 then some (n - 87)
  else if 65 ≤ n && n ≤ 70 then some (n - 55)
  else none

/-- JSON string-literal body (after the opening quote): ordinary characters,
the short escapes, and `\uXXXX`; a raw control character or a bad escape is
a parse error, exactly as in `JSON.parse`. -/
def parseStringAux : List Char → List Char → Option (String × List Char)
  | [], _ => none
  | '"' :: rest, acc => some (String.mk acc.reverse, rest)
  | ['\\'], _ => none
  | '\\' :: e :: rest, acc =>
    if e = '"' then parseStringAux rest ('"' :: acc)
    else if e = '\\' then parseStringAux rest ('\\' :: acc)
    else if e = '/' then parseStringAux rest ('/' :: acc)
    else if e = 'b' then parseStringAux rest ('\x08' :: acc)
    else if e = 'f' then parseStringAux rest ('\x0c' :: acc)
    else if e = 'n' then parseStringAux rest ('\n' :: acc)
    else if e = 'r' then parseStringAux rest ('\r' :: acc)
    else if e = 't' then parseStringAux rest ('\t' :: acc)
    else if e = 'u' then
      match rest with
      | h1 :: h2 :: h3 :: h4 :: rest2 =>
        match hexVal h1, hexVal h2, hexVal h3, hexVal h4 with
        | some a, some b, some c, some d =>
          parseStringAux rest2 (Char.ofNat (((a * 16 + b) * 16 + c) * 16 + d) :: acc)
        | _, _, _, _ => none
      | _ => none
    else none
  | c :: rest, acc =>
    if c.toNat < 0x20 then none else parseStringAux rest (c :: acc)

def digitVal (c : Char) : Nat := c.toNat - '0'.toNat

def takeDigits : List Char → List Nat × List Char
  | [] => ([], [])
  | c :: rest =>
    if c.isDigit then
      let (ds, r) := takeDigits rest
      (digitVal c :: ds, r)
    else ([], c :: rest)

def natFromDigits (ds : List Nat) : Nat :=
  ds.foldl (fun acc d => acc * 10 + d) 0

/-- Optional fraction part `.digits` of a JSON number. -/
def parseFrac : List Char → Option (List Nat × List Char)
  | '.' :: r =>
    let (ds, rr) := takeDigits r
    if ds.isEmpty then none else some (ds, rr)
  | l => some ([], l)

/-- Optional exponent part `e|E [+|-] digits` of a JSON number. -/
def parseExp : List Char → Option (Int × List Char)
  | [] => some (0, [])
  | c :: r =>
    if c = 'e' || c = 'E' then
      let (sgn, r2) : Int × List Char :=
        match r with
        | '+' :: rr => (1, rr)
        | '-' :: rr => (-1, rr)
        | _ => (1, r)
      let (ds, rr) := takeDigits r2
      if ds.isEmpty then none else some (sgn * (natFromDigits ds : Int), rr)
    else some (0, c :: r)

/-- JSON number after the optional minus sign; a leading zero may not be
followed by further integer digits. -/
def parseNumAux (neg : Bool) (l : List Char) : Option (Json × List Char) :=
  let (ip, r1) := takeDigits l
  if ip.isEmpty then none
  else if 1 < ip.length && ip.headD 0 = 0 then none
  else
    match parseFrac r1 with
    | none => none
    | some (fp, r2) =>
      match parseExp r2 with
      | none => none
      | some (ex, r3) => some (.num neg ip fp ex, r3)

/-- Insert a member into an object under construction: a duplicate key keeps
its original position but takes the new value (JavaScript object
semantics). -/
def objUpsert (m : List (String × Json)) (k : String) (v : Json) : List (String × Json) :=
  if m.any (fun p => p.1 = k) then m.map (fun p => if p.1 = k then (k, v) else p)
  else m ++ [(k, v)]

/-- Parser mode: a whole value, or the inside of an object or array after
the opening bracket (`objAfter`/`arrAfter` carry the members read so far). -/
inductive PMode where
  | top
  | objStart
  | objAfter (acc : List (String × Json))
  | arrStart
  | arrAfter (acc : List Json)

/-- Recursive-descent JSON parser, structurally recursive on a fuel bound
(`Json.parseStr` supplies fuel larger than the input can consume). -/
def parseF : Nat → PMode → List Char → Option (Json × List Char)
  | 0, _, _ => none
  | fuel + 1, .top, l =>
    match l.dropWhile isJsonWs with
    | [] => none
    | c :: rest =>
      if c = '{' then parseF fuel .objStart rest
      else if c = '[' then parseF fuel .arrStart rest
      else if c = '"' then
        match parseStringAux rest [] with
        | some (s, r) => some (.str s, r)
        | none => none
      else if c = 't' then
        match rest with
        | 'r' :: 'u' :: 'e' :: r => some (.bool true, r)
        | _ => none
      else if c = 'f' then
        match rest with
        | 'a' :: 'l' :: 's' :: 'e' :: r => some (.bool false, r)
        | _ => none
      else if c = 'n' then
        match rest with
        | 'u' :: 'l' :: 'l' :: r => some (.null, r)
        | _ => none
      else if c = '-' then parseNumAux true rest
      else if c.isDigit then parseNumAux false (c :: rest)
      else none
  | fuel + 1, .objStart, l =>
    match l.dropWhile isJsonWs with
    | '}' :: r => some (.obj [], r)
    | '"' :: r =>
      match parseStringAux r [] with
      | some (k, r2) =>
        match r2.dropWhile isJsonWs with
        | ':' :: r3 =>
          match parseF fuel .top r3 with
          | some (v, r4) => parseF fuel (.objAfter (objUpsert [] k v)) r4
          | none => none
        | _ => none
      | none => none
    | _ => none
  | fuel + 1, .objAfter acc, l =>
    match l.dropWhile isJsonWs with
    | '}' :: r => some (.obj acc, r)
    | ',' :: r =>
      match r.dropWhile isJsonWs with
      | '"' :: r1 =>
        match parseStringAux r1 [] with
        | some (k, r2) =>
          match r2.dropWhile isJsonWs with
          | ':' :: r3 =>
            match parseF fuel .top r3 with
            | some (v, r4) => parseF fuel (.objAfter (objUpsert acc k v)) r4
            | none => none
          | _ => none
        | none => none
      | _ => none
    | _ => none
  | fuel + 1, .arrStart, l =>
    match l.dropWhile isJsonWs with
    | ']' :: r => some (.arr [], r)
    | _ =>
      match parseF fuel .top l with
      | some (v, r) => parseF fuel (.arrAfter [v]) r
      | none => none
  | fuel + 1, .arrAfter acc, l =>
    match l.dropWhile isJsonWs with
    | ']' :: r => some (.arr acc, r)
    | ',' :: r =>
      match parseF fuel .top r with
      | some (v, r2) => parseF fuel (.arrAfter (acc ++ [v])) r2
      | none => none
    | _ => none

/-- `JSON.parse` on a character list: parse one value, then require only
whitespace to remain. -/
def Json.parseStr (l : List Char) : Option Json :=
  match parseF (2 * l.length + 4) .top l with
  | some (v, rest) => if (rest.dropWhile isJsonWs).isEmpty then some v else none
  | none => none

/-- JavaScript truthiness of a JSON value (`null`, `false`, `0`, `""` are
falsy; every object and array is truthy). -/
def jsTruthy : Json → Bool
  | .null => false
  | .bool b => b
  | .num _ ip fp _ => ip.any (· ≠ 0) || fp.any (· ≠ 0)
  | .str s => s ≠ ""
  | .arr _ => true
  | .obj _ => true

/-- Property lookup on a parsed object member list. -/
def objGet (m : List (String × Json)) (k : String) : Option Json :=
  (m.find? (fun p => p.1 = k)).map (fun p => p.2)

/-- The acceptance test of `extractJson`: the line
`parsed && typeof parsed === 'object' && parsed.tool` — a truthy value of
object type whose `tool` property is truthy (arrays have no `tool`
property, so only objects qualify). -/
def hasTruthyTool : Json → Bool
  | .obj m =>
    match objGet m "tool" with
    | some v => jsTruthy v
    | none => false
  | _ => false

/-- Whether a candidate substring parses as JSON and passes the `tool`
heuristic of `extractJson`. -/
def isToolJson (l : List Char) : Bool :=
  match Json.parseStr l with
  | some v => hasTruthyTool v
  | none => false

/-- The inclusive character range `i..j` of the cleaned text, as produced
by the candidate expression `clean.substring(i, closeIdx + 1)`. -/
def subRange (l : List Char) (i j : Nat) : List Char :=
  (l.drop i).take (j + 1 - i)

/-- Contribution of one character to the backward brace-balance counter of
`extractJson`: `}` counts +1, `{` counts −1. -/
def braceStep (c : Char) : Int :=
  if c = '}' then 1 else if c = '{' then -1 else 0

/-- Net brace balance (closing minus opening) of a character list. -/
def braceDelta : List Char → Int
  | [] => 0
  | c :: rest => braceStep c + braceDelta rest

/-- The candidate test at one position of the inner loop: take the
substring, `JSON.parse` it, and accept it when the parsed value has a
truthy `tool` property. -/
def candidateAt (cl : List Char) (i closeIdx : Nat) : Option (List Char) :=
  let cand := subRange cl i closeIdx
  if isToolJson cand then some cand else none

/-- One step of the inner loop body: update the balance with the character
at `i` and test the candidate when the balance reaches zero. -/
def innerStep (cl : List Char) (closeIdx i : Nat) (bal : Int) :
    Int × Option (List Char) :=
  let c := cl.getD i ' '
  let bal2 := bal + braceStep c
  (bal2, if bal2 = 0 then candidateAt cl i closeIdx else none)

/-- The inner loop of `extractJson`: `for (let i = closeIdx; i >= 0; i--)`,
walking backward from the closing brace, maintaining the balance, and
returning the first candidate accepted. -/
def innerScan (cl : List Char) (closeIdx : Nat) (i : Nat) (bal : Int) :
    Option (List Char) :=
  match innerStep cl closeIdx i bal with
  | (_, some t) => some t
  | (bal2, none) =>
    match i with
    | 0 => none
    | i2 + 1 => innerScan cl closeIdx i2 bal2

/-- The outer loop of `extractJson`: try each closing-brace position, in the
order of the `closingIndices` list. -/
def outerScan (cl : List Char) : List Nat → Option (List Char)
  | [] => none
  | e :: rest =>
    match innerScan cl e e 0 with
    | some t => some t
    | none => outerScan cl rest

/-- Positions of `}` in the cleaned text, rightmost first — the source
builds this by pushing indices while scanning from the end. -/
def closingIndices (cl : List Char) : List Nat :=
  ((List.range cl.length).filter (fun i => cl.getD i ' ' = '}')).reverse

/-- `extractJson` (MCP-enabled variant): clean the raw model output, then
scan backward from each closing brace for the first balanced candidate that
parses and carries a truthy `tool` field; `none` models the `null` return.
The accepted candidate is returned verbatim. -/
def extractJson (text : String) : Option String :=
  let cl := cleanText text.data
  match outerScan cl (closingIndices cl) with
  | some t => some (String.mk t)
  | none => none

/-- Truthiness of a possibly-undefined value (`undefined` is falsy). -/
def jsTruthyOpt : Option Json → Bool
  | some v => jsTruthy v
  | none => false

/-- Property access `v.k` as JavaScript resolves it on a parsed value:
objects look the key up, every other non-null value yields `undefined`.
(Reading a property of `null` throws; see `jsPropE`.) -/
def jsGet : Json → String → Option Json
  | .obj m, k => objGet m k
  | _, _ => none

/-- `typeof v === 'object'` for a parsed value: objects, arrays and `null`. -/
def typeofObject : Json → Bool
  | .obj _ => true
  | .arr _ => true
  | .null => true
  | _ => false

def typeofObjectOpt : Option Json → Bool
  | some v => typeofObject v
  | none => false

/-- Property access that can throw: reading any property of `null` raises a
`TypeError`, whose message the enclosing `catch` turns into text. -/
def jsPropE (v : Json) (k : String) : Except String (Option Json) :=
  match v with
  | .null => .error ("Cannot read properties of null (reading \x27" ++ k ++ "\x27)")
  | .obj m => .ok (objGet m k)
  | _ => .ok none

/-- JavaScript `a || b` on possibly-undefined values: the first operand if
truthy, otherwise the second. -/
def jsOrOpt (a b : Option Json) : Option Json :=
  match a with
  | some v => if jsTruthy v then some v else b
  | none => b

def objErase (m : List (String × Json)) (k : String) : List (String × Json) :=
  m.filter (fun p => p.1 ≠ k)

/-- Write a property whose right-hand side may be `undefined`: every use
the source later makes of such a property (truthiness, `typeof`, property
reads, serialization) coincides with the property being absent, so an
`undefined` write is modelled as erasure. -/
def jsSetOpt (m : List (String × Json)) (k : String) (o : Option Json) :
    List (String × Json) :=
  match o with
  | some v => objUpsert m k v
  | none => objErase m k

/-- Object spread `{ ...base, ...v }`: object members are merged in order;
spreading a string contributes its index properties; spreading an array
contributes its element index properties; other primitives contribute
nothing. -/
def jsSpreadInto (base : List (String × Json)) : Json → List (String × Json)
  | .obj m => m.foldl (fun acc p => objUpsert acc p.1 p.2) base
  | .arr es => (es.enum).foldl (fun acc p => objUpsert acc (toString p.1) p.2) base
  | .str s =>
    (s.data.enum).foldl
      (fun acc p => objUpsert acc (toString p.1) (.str (String.mk [p.2]))) base
  | _ => base

def trimZerosEnd (ds : List Nat) : List Nat :=
  (ds.reverse.dropWhile (· = 0)).reverse

def digitsToChars (ds : List Nat) : List Char :=
  ds.map (fun d => Char.ofNat ('0'.toNat + d))

/-- Decimal rendering of a parsed JSON number value (sign, digits, shifted
decimal point), matching JavaScript `String(number)` for the plain-decimal
range; the e-notation JavaScript switches to beyond 1e21 / below 1e-6 is
outside the range this model is used on. -/
def jsNumToStr (neg : Bool) (ip fp : List Nat) (ex : Int) : String :=
  let d := ip ++ fp
  if d.all (· = 0) then "0"
  else
    let p : Int := (ip.length : Int) + ex
    let parts : List Nat × List Nat :=
      if p ≤ 0 then ([0], List.replicate (-p).toNat 0 ++ d)
      else if (d.length : Int) ≤ p then (d ++ List.replicate (p - d.length).toNat 0, [])
      else (d.take p.toNat, d.drop p.toNat)
    let ints0 := parts.1.dropWhile (· = 0)
    let ints := if ints0.isEmpty then [0] else ints0
    let fracs := trimZerosEnd parts.2
    let core := digitsToChars ints ++ (if fracs.isEmpty then [] else '.' :: digitsToChars fracs)
    String.mk ((if neg then ['-'] else []) ++ core)

/-- JavaScript `String(v)` for parsed values, with fuel for the nested
array case; the flag says whether the value is rendered as an array
element, where `null` renders as the empty string. -/
def jsToStrF : Nat → Bool → Json → String
  | 0, _, _ => ""
  | _ + 1, inArr, .null => if inArr then "" else "null"
  | _ + 1, _, .bool b => if b then "true" else "false"
  | _ + 1, _, .num n ip fp ex => jsNumToStr n ip fp ex
  | _ + 1, _, .str s => s
  | _ + 1, _, .obj _ => "[object Object]"
  | fuel + 1, _, .arr es => String.intercalate "," (es.map (fun e => jsToStrF fuel true e))

/-- Array-nesting depth of a value, an adequate fuel bound for rendering:
only the array case of `jsToStrF` recurses. -/
def arrayDepth : Json → Nat
  | .arr es => 1 + es.attach.foldl (fun acc e => max acc (arrayDepth e.1)) 0
  | _ => 1
decreasing_by
  have := List.sizeOf_lt_of_mem e.2
  simp only [Json.arr.sizeOf_spec]
  omega

def jsToStr (v : Json) : String :=
  match v with
  | .arr es => jsToStrF (arrayDepth (.arr es)) false (.arr es)
  | v => jsToStrF 1 false v

/-- `parseInt(s)` with no radix argument: strip leading whitespace, an
optional sign, then either a `0x`/`0X` hexadecimal literal or a run of
decimal digits; no digits means `NaN`, modelled as `none`. -/
def jsParseInt (s : String) : Option Int :=
  let l := s.data.dropWhile isJsWs
  let signed : Bool × List Char :=
    match l with
    | '-' :: r => (true, r)
    | '+' :: r => (false, r)
    | _ => (false, l)
  let neg := signed.1
  let hexTail : Option (List Char) :=
    match signed.2 with
    | '0' :: x :: r => if x = 'x' || x = 'X' then some r else none
    | _ => none
  match hexTail with
  | some r =>
    let ds := (r.takeWhile (fun c => (hexVal c).isSome)).map (fun c => (hexVal c).getD 0)
    if ds.isEmpty then none
    else some ((if neg then -1 else 1) * ((ds.foldl (fun a d => a * 16 + d) 0 : Nat) : Int))
  | none =>
    let ds := (signed.2.takeWhile Char.isDigit).map digitVal
    if ds.isEmpty then none
    else some ((if neg then -1 else 1) * ((natFromDigits ds : Nat) : Int))

/-- `parseInt(toolCall.args.bookingId)`: an absent argument stringifies to
`"undefined"`, any present value is converted with `String(v)` first. -/
def jsParseIntOpt : Option Json → Option Int
  | none => jsParseInt "undefined"
  | some v => jsParseInt (jsToStr v)

/-- The inline validation helper of the orchestrator:
`obj && typeof obj.tool === "string" && obj.args && typeof obj.args === "object"`. -/
def isValidToolCall (v : Json) : Bool :=
  jsTruthy v &&
  (match v with
   | .obj m =>
     (match objGet m "tool" with
      | some (.str _) => true
      | _ => false) &&
     (match objGet m "args" with
      | some w => jsTruthy w && typeofObject w
      | none => false)
   | _ => false)

/-- `toolCall.tool` of a structurally valid tool call. -/
def toolNameOf : Json → String
  | .obj m =>
    match objGet m "tool" with
    | some (.str s) => s
    | _ => ""
  | _ => ""

/-- `toolCall.args` of a structurally valid tool call. -/
def toolArgsOf : Json → Json
  | .obj m => (objGet m "args").getD .null
  | _ => .null

/-- Argument fixup for the `create-event` tool: default `account` and
`calendarId`, unwrap a nested `event` object (its fields win over
same-named top-level ones), and coerce object-shaped `start`/`end` values
down to `dateTime || date`.  Property reads on a `null` timestamp throw,
hence the `Except`. -/
def normCreateEvent (args : Json) : Except String Json := do
  let m0 := jsSpreadInto [] args
  let m1 := if !(jsTruthyOpt (objGet m0 "account")) then objUpsert m0 "account" (.str "normal") else m0
  let m2 := if !(jsTruthyOpt (objGet m1 "calendarId")) then objUpsert m1 "calendarId" (.str "primary") else m1
  let m3 :=
    match objGet m2 "event" with
    | some evt =>
      if jsTruthy evt then
        let b0 := jsSpreadInto (jsSpreadInto [] (.obj m2)) evt
        let b1 := jsSetOpt b0 "summary" (jsOrOpt (jsGet evt "summary") (objGet m2 "summary"))
        let b2 := jsSetOpt b1 "description" (jsOrOpt (jsGet evt "description") (objGet m2 "description"))
        let b3 := jsSetOpt b2 "start" (jsOrOpt (jsGet evt "start") (objGet m2 "start"))
        let b4 := jsSetOpt b3 "end" (jsOrOpt (jsGet evt "end") (objGet m2 "end"))
        objErase b4 "event"
      else m2
    | none => m2
  let m4 ←
    match objGet m3 "start" with
    | some v =>
      if typeofObject v then do
        let d1 ← jsPropE v "dateTime"
        let d2 ← jsPropE v "date"
        pure (jsSetOpt m3 "start" (jsOrOpt d1 d2))
      else pure m3
    | none => pure m3
  let m5 ←
    match objGet m4 "end" with
    | some v =>
      if typeofObject v then do
        let d1 ← jsPropE v "dateTime"
        let d2 ← jsPropE v "date"
        pure (jsSetOpt m4 "end" (jsOrOpt d1 d2))
      else pure m4
    | none => pure m4
  pure (.obj m5)

/-- Argument fixup for `list-events`: default or repair `account` and
`calendarId` (placeholder literals included) and cap `maxResults` at a
default of 5. -/
def normListEvents (args : Json) : Json :=
  let m0 := jsSpreadInto [] args
  let accBad :=
    match objGet m0 "account" with
    | none => true
    | some v =>
      !jsTruthy v ||
      (match v with
       | .str s => s = "value" || s = "your_account"
       | _ => false)
  let m1 := if accBad then objUpsert m0 "account" (.str "normal") else m0
  let calBad :=
    match objGet m1 "calendarId" with
    | none => true
    | some v =>
      !jsTruthy v ||
      (match v with
       | .str s => s = "value" || s = "your_calendar_id"
       | _ => false)
  let m2 := if calBad then objUpsert m1 "calendarId" (.str "primary") else m1
  let m3 :=
    if !(jsTruthyOpt (objGet m2 "maxResults")) then
      objUpsert m2 "maxResults" (.num false [5] [] 0)
    else m2
  .obj m3

/-- Argument fixup for `create_calendar_event` (the fallback server's
nested shape): fix object-shaped timestamps inside an existing `event`
wrapper, or wrap flat arguments into one. -/
def normCreateCalendarEvent (args : Json) : Except String Json := do
  let evtOpt := jsGet args "event"
  match evtOpt with
  | some evt =>
    if jsTruthy evt then
      let es := jsGet evt "start"
      let ee := jsGet evt "end"
      if typeofObjectOpt es || typeofObjectOpt ee then do
        let s2 ←
          match es with
          | some v =>
            if typeofObject v then do
              let d1 ← jsPropE v "dateTime"
              let d2 ← jsPropE v "date"
              pure (jsOrOpt d1 d2)
            else pure es
          | none => pure es
        let e2 ←
          match ee with
          | some v =>
            if typeofObject v then do
              let d1 ← jsPropE v "dateTime"
              let d2 ← jsPropE v "date"
              pure (jsOrOpt d1 d2)
            else pure ee
          | none => pure ee
        let em := jsSpreadInto [] evt
        let em2 := jsSetOpt em "start" s2
        let em3 := jsSetOpt em2 "end" e2
        pure (.obj (objUpsert (jsSpreadInto [] args) "event" (.obj em3)))
      else pure args
    else
      pure (.obj [("calendarId", (jsOrOpt (jsGet args "calendarId") (some (.str "primary"))).getD (.str "primary")),
                  ("event", .obj (jsSpreadInto [] args))])
  | none =>
    pure (.obj [("calendarId", (jsOrOpt (jsGet args "calendarId") (some (.str "primary"))).getD (.str "primary")),
                ("event", .obj (jsSpreadInto [] args))])

/-- The per-tool argument normalization block guarding `mcpClient.callTool`;
tools without a special case pass their arguments through unchanged. -/
def transformArgs (tool : String) (args : Json) : Except String Json :=
  if tool = "create-event" then normCreateEvent args
  else if tool = "list-events" then .ok (normListEvents args)
  else if tool = "create_calendar_event" then normCreateCalendarEvent args
  else .ok args

/-- Substring search, as `String.prototype.includes`. -/
def hasSub (sub : List Char) : List Char → Bool
  | [] => sub.isEmpty
  | c :: rest => sub.isPrefixOf (c :: rest) || hasSub sub rest

def strIncludes (s sub : String) : Bool := hasSub sub.data s.data

def invalidBookingMsgCheck : String := "I need a valid booking ID number to check the status."

def invalidBookingMsgCancel : String := "I need a valid booking ID number to cancel."

def unknownToolMsg : String := "I couldn\x27t understand which action to perform. Could you rephrase?"

def apologyMsg : String := "I\x27m having trouble processing your request right now. Please try again in a moment."

def calendarConfigMsg : String := "I can see you want to use the calendar feature, but the Google Calendar service isn\x27t fully configured yet. Please ask your administrator to set up the calendar credentials."

/-- The `catch (mcpError)` handler around MCP execution: calendar-named
tools get the fixed operator-actionable message, anything else a generic
failure line carrying the error message. -/
def mcpErrText (tool e : String) : String :=
  if strIncludes tool "calendar" then calendarConfigMsg
  else "Calendar operation failed: " ++ e

def truncMarker : String := "\n... (Output truncated due to length limits)"

def jsLength (s : String) : Nat := s.data.length

def jsTake (s : String) (n : Nat) : String := String.mk (s.data.take n)

/-- The guard `if (toolResult && toolResult.length > 4000)` followed by
`substring(0, 4000)` plus the truncation marker. -/
def truncateToolResult (t : String) : String :=
  if t ≠ "" ∧ 4000 < jsLength t then jsTake t 4000 ++ truncMarker else t

/-- One typed part of an MCP tool result (`{type, text}`). -/
structure McpPart where
  ptype : String
  text : String

/-- `.map(c => c.type === 'text' ? c.text : '').join('\n')`. -/
def joinParts (ps : List McpPart) : String :=
  String.intercalate "\n" (ps.map (fun p => if p.ptype = "text" then p.text else ""))

/-- Observable calls the orchestrator makes across its boundaries, in
order: model calls and tool-executor invocations with the exact arguments
handed over. -/
inductive Effect where
  | firstCall (model : String)
  | summaryCall (model : String) (toolResult : String)
  | execSearchTrips (q : Option Json)
  | execGetBooking (id : Int)
  | execCancel (id : Int)
  | execBookTicket (tripId : Option Json) (userId : Int) (pickupId dropId amount : Option Json)
  | mcpCall (name : String) (args : Json)

/-- The tool executors as oracles: each call either returns text or throws
(`Except.error` carries the JS error message). -/
structure ToolEnv where
  searchTrips : Option Json → Except String String
  getBookingDetails : Int → Except String String
  cancelTicket : Int → Except String String
  bookTicket : Option Json → Int → Option Json → Option Json → Option Json → Except String String
  mcpCallTool : String → Json → Except String (List McpPart)

/-- Result of the tool `switch`: either a tool result destined for the
summary turn, or an early `return` with a fixed user-facing message. -/
inductive DispatchUx where
  | toolResult (s : String)
  | shortCircuit (s : String)

/-- The `switch (toolCall.tool)` of the orchestrator: built-in tools by
exact name, then MCP tools when the client is connected and the name is
registered, else the fixed unknown-action message.  The returned effect
list records the executor invocations; `Except.error` is an uncaught
executor throw escaping the switch. -/
def dispatchToolCall (tenv : ToolEnv) (mcpConnected : Bool) (mcpNames : List String)
    (tool : String) (args : Json) (userId : Int) : List Effect × Except String DispatchUx :=
  if tool = "search_trips" then
    let q := jsGet args "query"
    match tenv.searchTrips q with
    | .ok r => ([.execSearchTrips q], .ok (.toolResult r))
    | .error e => ([.execSearchTrips q], .error e)
  else if tool = "get_booking_details" then
    match jsParseIntOpt (jsGet args "bookingId") with
    | none => ([], .ok (.shortCircuit invalidBookingMsgCheck))
    | some bid =>
      match tenv.getBookingDetails bid with
      | .ok r => ([.execGetBooking bid], .ok (.toolResult r))
      | .error e => ([.execGetBooking bid], .error e)
  else if tool = "cancel_booking" then
    match jsParseIntOpt (jsGet args "bookingId") with
    | none => ([], .ok (.shortCircuit invalidBookingMsgCancel))
    | some bid =>
      match tenv.cancelTicket bid with
      | .ok r => ([.execCancel bid], .ok (.toolResult r))
      | .error e => ([.execCancel bid], .error e)
  else if tool = "book_ticket" then
    let t := jsGet args "tripId"
    let p := jsGet args "pickupId"
    let d := jsGet args "dropId"
    let a := jsGet args "amount"
    match tenv.bookTicket t userId p d a with
    | .ok r => ([.execBookTicket t userId p d a], .ok (.toolResult r))
    | .error e => ([.execBookTicket t userId p d a], .error e)
  else if mcpConnected && mcpNames.contains tool then
    match transformArgs tool args with
    | .error e => ([], .ok (.toolResult (mcpErrText tool e)))
    | .ok ta =>
      match tenv.mcpCallTool tool ta with
      | .error e => ([.mcpCall tool ta], .ok (.toolResult (mcpErrText tool e)))
      | .ok parts => ([.mcpCall tool ta], .ok (.toolResult (truncateToolResult (joinParts parts))))
  else ([], .ok (.shortCircuit unknownToolMsg))

/-- Behaviour of one model endpoint for the current request: the initial
decision call (given the user message) and the summary call (given the
tool-result text).  Success carries `choices[0]?.message?.content`, which
the API may leave absent (`none` = `undefined`); `Except.error` is a
thrown endpoint failure. -/
structure ModelBehavior where
  first : String → Except String (Option String)
  summary : String → Except String (Option String)

/-- The complete environment of one `generateAIResponse` call: model
endpoints, tool executors, and the module-level MCP connection state
(`mcpClient` non-null, discovered tool names). -/
structure AgentEnv where
  behav : String → ModelBehavior
  tools : ToolEnv
  mcpConnected : Bool
  mcpNames : List String

/-- The fixed priority list of model endpoints. -/
def modelPriorityList : List String :=
  ["mistralai/Mixtral-8x7B-Instruct-v0.1",
   "NousResearch/Hermes-2-Pro-Mistral-7B",
   "meta-llama/Meta-Llama-3-8B-Instruct"]

/-- The body of one iteration of the model loop.  `none` in the second
component means the iteration threw outside the inner `try` (first call
failed) or rethrew nothing — i.e. `continue` to the next model; `some r`
is a `return` with value `r`, where `r = none` models returning JavaScript
`undefined`.  The inner `try`/`catch (parseError)` swallows every throw
after JSON extraction (parse errors, executor throws, summary-call throws)
and returns the raw content instead. -/
def tryModel (env : AgentEnv) (userMessage : String) (userId : Int) (model : String) :
    List Effect × Option (Option String) :=
  match (env.behav model).first userMessage with
  | .error _ => ([.firstCall model], none)
  | .ok contentOpt =>
    match extractJson (contentOpt.getD "") with
    | none => ([.firstCall model], some (some (contentOpt.getD "")))
    | some jsonStr =>
      match Json.parseStr jsonStr.data with
      | none => ([.firstCall model], some (some (contentOpt.getD "")))
      | some toolCall =>
        if isValidToolCall toolCall then
          match dispatchToolCall env.tools env.mcpConnected env.mcpNames
              (toolNameOf toolCall) (toolArgsOf toolCall) userId with
          | (de, .error _) => (.firstCall model :: de, some (some (contentOpt.getD "")))
          | (de, .ok (.shortCircuit m)) => (.firstCall model :: de, some (some m))
          | (de, .ok (.toolResult tr)) =>
            match (env.behav model).summary tr with
            | .error _ =>
              (.firstCall model :: de ++ [.summaryCall model tr], some (some (contentOpt.getD "")))
            | .ok c2 => (.firstCall model :: de ++ [.summaryCall model tr], some c2)
        else ([.firstCall model], some (some (contentOpt.getD "")))

/-- The `for (const model of models)` loop; an exhausted list returns the
fixed apology. -/
def genLoop (env : AgentEnv) (userMessage : String) (userId : Int) :
    List String → List Effect × Option String
  | [] => ([], some apologyMsg)
  | m :: rest =>
    match tryModel env userMessage userId m with
    | (e, some r) => (e, r)
    | (e, none) =>
      (e ++ (genLoop env userMessage userId rest).1, (genLoop env userMessage userId rest).2)

/-- `generateAIResponse`: run the model loop over the fixed priority list;
the result records the boundary calls made and the returned value
(`none` = the function returned `undefined`). -/
def generateAIResponse (env : AgentEnv) (userMessage : String) (userId : Int) :
    List Effect × Option String :=
  genLoop env userMessage userId modelPriorityList

/-- An externally discovered (or fallback) tool definition, as far as the
dispatcher consults it. -/
structure McpToolDef where
  name : String
  description : String

/-- The module-level connector state: `mcpClient` (as a presence flag) and
`mcpToolsOrchestration`. -/
structure McpState where
  clientSet : Bool
  tools : List McpToolDef

/-- Environment of one connection attempt: the outcome of the
handshake-vs-timeout race and of `listTools()`. -/
structure McpConnEnv where
  handshake : Except String Unit
  discovery : Except String (List McpToolDef)

/-- The hard-coded fallback tool list substituted when discovery fails
after a successful handshake. -/
def fallbackMcpTools : List McpToolDef :=
  [⟨"add-account", "Authenticate a Google account (use this if \x27No authenticated accounts\x27 error occurs)"⟩,
   ⟨"create-event", "Create a new event in Google Calendar"⟩,
   ⟨"list-events", "List events from calendar"⟩]

/-- `connectToMcpServer`: return immediately when a client is already
stored; otherwise dial (second component `true`), store the client on
handshake success, then merge the discovered tools or the fallback list.
A handshake failure is caught and leaves the state unchanged. -/
def connectToMcpServer (env : McpConnEnv) (st : McpState) : McpState × Bool :=
  if st.clientSet then (st, false)
  else
    match env.handshake with
    | .error _ => (st, true)
    | .ok _ =>
      match env.discovery with
      | .ok ts => ({ clientSet := true, tools := ts }, true)
      | .error _ => ({ clientSet := true, tools := fallbackMcpTools }, true)

/-- Modelled from the claim's wording (C9), not from the source: the
numeric value of the longest leading run of decimal digits of a string. -/
def claimLeadingDigitsVal (s : String) : Option Int :=
  let ds := (s.data.takeWhile Char.isDigit).map digitVal
  if ds.isEmpty then none else some ((natFromDigits ds : Nat) : Int)

/-- The built-in dispatch table's tool names, in switch order. -/
def builtinToolNames : List String :=
  ["search_trips", "get_booking_details", "cancel_booking", "book_ticket"]

/-- Concrete raw model output for the C1 witness: a unique balanced tool
object with prose both before and after it. -/
def rawC1w : String := "ok \x7b\"tool\":\"a\",\"args\":\x7b\x7d\x7d bye"

/-- A tool environment whose executors all succeed with fixed texts. -/
def tenvW : ToolEnv :=
  ⟨fun _ => .ok "S", fun _ => .ok "G", fun _ => .ok "C",
   fun _ _ _ _ _ => .ok "B", fun _ _ => .ok [⟨"text", "M"⟩]⟩

/-- Witness environment for C2: the first endpoint replies with plain
conversational text. -/
def envC2w : AgentEnv :=
  ⟨fun _ => ⟨fun _ => .ok (some "hello"), fun _ => .ok none⟩, tenvW, false, []⟩

/-- Counterexample environment for C3: the model issues a tool call, the
tool succeeds, and the summary response carries no message content. -/
def envC3cex : AgentEnv :=
  ⟨fun _ => ⟨fun _ => .ok (some "\x7b\"tool\":\"search_trips\",\"args\":\x7b\"query\":\"x\"\x7d\x7d"),
             fun _ => .ok none⟩,
   tenvW, false, []⟩

/-- Witness environment for C3 (amended): every endpoint call throws. -/
def envC3w : AgentEnv :=
  ⟨fun _ => ⟨fun _ => .error "down", fun _ => .error "down"⟩, tenvW, false, []⟩

/-- Witness environment for C4, first half: every endpoint throws. -/
def envC4all : AgentEnv :=
  ⟨fun _ => ⟨fun _ => .error "boom", fun _ => .error "boom"⟩, tenvW, false, []⟩

/-- Witness environment for C4, second half: the first endpoint throws and
every later endpoint returns a plain reply. -/
def envC4two : AgentEnv :=
  ⟨fun m =>
    if m = "mistralai/Mixtral-8x7B-Instruct-v0.1" then
      ⟨fun _ => .error "boom", fun _ => .error "boom"⟩
    else ⟨fun _ => .ok (some "plain reply"), fun _ => .ok none⟩,
   tenvW, false, []⟩

/-- Connection environment for C5 in which the handshake race fails. -/
def mcpEnvFail : McpConnEnv :=
  ⟨.error "MCP Connection Timed Out - Check if credentials.json is missing or Auth is pending",
   .ok []⟩

/-- Connection environment for C5 in which handshake and discovery both
succeed. -/
def mcpEnvOk : McpConnEnv := ⟨.ok (), .ok [⟨"create-event", "d"⟩]⟩

/-- The connector state at module load: no client, no discovered tools. -/
def mcpInitState : McpState := ⟨false, []⟩

/-- A connector state after a successful connection. -/
def mcpStConnected : McpState := ⟨true, [⟨"create-event", "d"⟩]⟩

/-- A 4001-character external tool result, one character past the
truncation threshold. -/
def bigToolResult : String := String.mk (List.replicate 4001 'a')

/-- MCP result parts carrying the 4001-character text. -/
def partsC6w : List McpPart := [⟨"text", bigToolResult⟩]

/-- Tool environment for the C6 witness: the MCP call returns the long
result. -/
def tenvC6w : ToolEnv :=
  ⟨fun _ => .ok "", fun _ => .ok "", fun _ => .ok "",
   fun _ _ _ _ _ => .ok "", fun _ _ => .ok partsC6w⟩

/-- Tool environment for the C7 witness. -/
def tenvC7w : ToolEnv :=
  ⟨fun _ => .ok "", fun _ => .ok "", fun _ => .ok "",
   fun _ _ _ _ _ => .ok "", fun _ _ => .ok [⟨"text", "events"⟩]⟩

/-- Witness environment for C8: the first endpoint emits a
`get_booking_details` call with a non-numeric booking id. -/
def envC8w : AgentEnv :=
  ⟨fun _ => ⟨fun _ => .ok (some "\x7b\"tool\":\"get_booking_details\",\"args\":\x7b\"bookingId\":\"abc\"\x7d\x7d"),
             fun _ => .ok (some "sum")⟩,
   tenvW, false, []⟩

/-- Tool environment for C9: booking executors reply with a fixed text. -/
def tenvC9 : ToolEnv :=
  ⟨fun _ => .ok "", fun _ => .ok "ok", fun _ => .ok "ok",
   fun _ _ _ _ _ => .ok "", fun _ _ => .ok []⟩

section ScanLemmas

theorem subRange_cons (cl : List Char) (i j : Nat) (hij : i ≤ j) (hi : i < cl.length) :
    subRange cl i j = cl.getD i ' ' :: subRange cl (i + 1) j := by
  unfold subRange
  rw [List.drop_eq_getElem_cons hi, List.getD_eq_getElem _ _ hi]
  have h1 : j + 1 - i = (j + 1 - (i + 1)) + 1 := by omega
  rw [h1, List.take_succ_cons]

theorem subRange_empty (cl : List Char) (j : Nat) : subRange cl (j + 1) j = [] := by
  unfold subRange
  have : j + 1 - (j + 1) = 0 := by omega
  rw [this, List.take_zero]

theorem braceDelta_subRange (cl : List Char) (i j : Nat) (hij : i ≤ j) (hi : i < cl.length) :
    braceDelta (subRange cl i j) =
      braceStep (cl.getD i ' ') + braceDelta (subRange cl (i + 1) j) := by
  rw [subRange_cons cl i j hij hi, braceDelta]

theorem candidateAt_some (cl : List Char) (i e : Nat) (t : List Char)
    (h : candidateAt cl i e = some t) :
    t = subRange cl i e ∧ isToolJson t = true := by
  simp only [candidateAt] at h
  split at h
  · cases h
    exact ⟨rfl, by assumption⟩
  · cases h

theorem innerStep_snd_some (cl : List Char) (e i : Nat) (bal : Int) (t : List Char)
    (h : (innerStep cl e i bal).2 = some t) :
    t = subRange cl i e ∧ isToolJson t = true := by
  unfold innerStep at h
  simp only at h
  split at h
  · exact candidateAt_some cl i e t h
  · cases h

theorem innerStep_fst (cl : List Char) (e i : Nat) (bal : Int) :
    (innerStep cl e i bal).1 = bal + braceStep (cl.getD i ' ') := rfl

theorem innerScan_sound (cl : List Char) (e : Nat) :
    ∀ i bal t, innerScan cl e i bal = some t →
      ∃ i0, i0 ≤ i ∧ t = subRange cl i0 e ∧ isToolJson t = true := by
  intro i
  induction i with
  | zero =>
    intro bal t h
    rw [innerScan] at h
    cases h2 : innerStep cl e 0 bal with
    | mk bal2 res =>
      rw [h2] at h
      cases res with
      | some t2 =>
        cases h
        exact ⟨0, Nat.le_refl 0, innerStep_snd_some cl e 0 bal t (by rw [h2])⟩
      | none => cases h
  | succ n ih =>
    intro bal t h
    rw [innerScan] at h
    cases h2 : innerStep cl e (n + 1) bal with
    | mk bal2 res =>
      rw [h2] at h
      cases res with
      | some t2 =>
        cases h
        exact ⟨n + 1, Nat.le_refl _, innerStep_snd_some cl e (n + 1) bal t (by rw [h2])⟩
      | none =>
        obtain ⟨i0, hle, rest⟩ := ih bal2 t h
        exact ⟨i0, Nat.le_succ_of_le hle, rest⟩

theorem innerScan_ne_none (cl : List Char) (e s : Nat)
    (hacc : isToolJson (subRange cl s e) = true)
    (hbal0 : braceDelta (subRange cl s e) = 0)
    (he : e < cl.length) :
    ∀ i, s ≤ i → ∀ bal, i ≤ e →
      bal = braceDelta (subRange cl (i + 1) e) →
      innerScan cl e i bal ≠ none := by
  intro i hsi
  induction i, hsi using Nat.le_induction with
  | base =>
    intro bal hie hb
    have hslen : s < cl.length := Nat.lt_of_le_of_lt hie he
    have hbz : bal + braceStep (cl.getD s ' ') = 0 := by
      have hd := braceDelta_subRange cl s e hie hslen
      rw [hbal0] at hd
      rw [hb]
      omega
    have hstep : innerStep cl e s bal =
        (bal + braceStep (cl.getD s ' '), some (subRange cl s e)) := by
      simp only [innerStep]
      rw [if_pos hbz]
      simp only [candidateAt]
      rw [if_pos hacc]
    rw [innerScan, hstep]
    simp
  | succ n hn ih =>
    intro bal hie hb
    rw [innerScan]
    cases h2 : innerStep cl e (n + 1) bal with
    | mk bal2 res =>
      cases res with
      | some t => simp
      | none =>
        show innerScan cl e n bal2 ≠ none
        have hlen : n + 1 < cl.length := Nat.lt_of_le_of_lt hie he
        have hbal2 : bal2 = braceDelta (subRange cl (n + 1) e) := by
          have hf : (innerStep cl e (n + 1) bal).1 = bal2 := by rw [h2]
          rw [innerStep_fst] at hf
          have hd := braceDelta_subRange cl (n + 1) e hie hlen
          rw [← hf, hb, hd]
          omega
        exact ih bal2 (by omega) (by rw [hbal2])

theorem outerScan_sound (cl : List Char) :
    ∀ L t, outerScan cl L = some t →
      ∃ i0 e, e ∈ L ∧ i0 ≤ e ∧ t = subRange cl i0 e ∧ isToolJson t = true := by
  intro L
  induction L with
  | nil => intro t h; cases h
  | cons c rest ih =>
    intro t h
    rw [outerScan] at h
    cases h2 : innerScan cl c c 0 with
    | some t2 =>
      rw [h2] at h
      cases h
      obtain ⟨i0, hle, ht, hacc⟩ := innerScan_sound cl c c 0 t h2
      exact ⟨i0, c, List.mem_cons_self c rest, hle, ht, hacc⟩
    | none =>
      rw [h2] at h
      obtain ⟨i0, e, hmem, rest2⟩ := ih t h
      exact ⟨i0, e, List.mem_cons_of_mem c hmem, rest2⟩

theorem outerScan_ne_none (cl : List Char) (s e : Nat)
    (hse : s ≤ e) (he : e < cl.length)
    (hacc : isToolJson (subRange cl s e) = true)
    (hbal0 : braceDelta (subRange cl s e) = 0) :
    ∀ L, e ∈ L → outerScan cl L ≠ none := by
  intro L
  induction L with
  | nil => intro h; cases h
  | cons c rest ih =>
    intro hmem
    rw [outerScan]
    cases h2 : innerScan cl c c 0 with
    | some t => simp
    | none =>
      simp only
      rcases List.mem_cons.mp hmem with hce | hmem2
      · subst hce
        have hz : (0 : Int) = braceDelta (subRange cl (e + 1) e) := by
          rw [subRange_empty, braceDelta]
        exact absurd h2 (innerScan_ne_none cl e s hacc hbal0 he e hse 0 (Nat.le_refl e) hz)
      · exact ih hmem2

theorem mem_closingIndices (cl : List Char) (e : Nat) (he : e < cl.length)
    (hc : cl.getD e ' ' = '}') : e ∈ closingIndices cl := by
  unfold closingIndices
  rw [List.mem_reverse, List.mem_filter, List.mem_range]
  refine ⟨he, ?_⟩
  simpa using hc

theorem closingIndices_lt (cl : List Char) (e : Nat) (he : e ∈ closingIndices cl) :
    e < cl.length := by
  unfold closingIndices at he
  rw [List.mem_reverse, List.mem_filter, List.mem_range] at he
  exact he.1

theorem closingIndices_char (cl : List Char) (e : Nat) (he : e ∈ closingIndices cl) :
    cl.getD e ' ' = '}' := by
  unfold closingIndices at he
  rw [List.mem_reverse, List.mem_filter, List.mem_range] at he
  simpa using he.2

/-- Shared core of the extraction claims: whenever `extractJson` returns a
candidate, that candidate is a substring of the cleaned text, ending at a
closing-brace position, that parses with a truthy `tool` field. -/
theorem extractJson_some_spec (raw : String) (t : String)
    (h : extractJson raw = some t) :
    ∃ i0 e, i0 ≤ e ∧ e < (cleanText raw.data).length ∧
      (cleanText raw.data).getD e ' ' = '}' ∧
      t.data = subRange (cleanText raw.data) i0 e ∧ isToolJson t.data = true := by
  simp only [extractJson] at h
  cases h2 : outerScan (cleanText raw.data) (closingIndices (cleanText raw.data)) with
  | some t2 =>
    rw [h2] at h
    cases h
    obtain ⟨i0, e, hmem, hle, ht, hacc⟩ :=
      outerScan_sound (cleanText raw.data) (closingIndices (cleanText raw.data)) t2 h2
    exact ⟨i0, e, hle, closingIndices_lt _ e hmem, closingIndices_char _ e hmem, ht, hacc⟩
  | none =>
    rw [h2] at h
    cases h

/-- Shared core of C2: if no substring of the cleaned text passes the
parse-and-`tool` test, extraction returns `none`. -/
theorem extractJson_eq_none_of_no_candidate (raw : String)
    (hnone : ∀ j, j < (cleanText raw.data).length → ∀ i, i ≤ j →
      isToolJson (subRange (cleanText raw.data) i j) = false) :
    extractJson raw = none := by
  cases h : extractJson raw with
  | none => rfl
  | some t =>
    obtain ⟨i0, e, hle, helen, _, ht, hacc⟩ := extractJson_some_spec raw t h
    rw [ht] at hacc
    rw [hnone e helen i0 hle] at hacc
    cases hacc

end ScanLemmas

/-- C1: For every raw model output whose cleaned text contains exactly one
balanced, `tool`-bearing JSON object — the substring from `s` to `e` ends at
a closing brace, is brace-balanced, and parses with a truthy `tool` field,
and every substring that ends at a closing-brace position (the only
candidates the scanner ever tests) and passes the parse-and-`tool` test
equals that object's text after dropping leading JSON whitespace — the
extractor returns that object's text with unchanged semantic content (equal
to it up to leading whitespace, and again passing the parse-and-`tool`
test), by scanning the cleaned text from the rightmost closing brace with a
backward brace-balance counter and accepting the first balanced candidate
that parses with a non-empty `tool` field. -/
theorem extractJson_unique_tool_object (raw : String) (s e : Nat)
    (hse : s ≤ e) (he : e < (cleanText raw.data).length)
    (hclose : (cleanText raw.data).getD e ' ' = '}')
    (hbal : braceDelta (subRange (cleanText raw.data) s e) = 0)
    (hacc : isToolJson (subRange (cleanText raw.data) s e) = true)
    (huniq : ∀ j, j < (cleanText raw.data).length →
      (cleanText raw.data).getD j ' ' = '}' → ∀ i, i ≤ j →
      isToolJson (subRange (cleanText raw.data) i j) = true →
      (subRange (cleanText raw.data) i j).dropWhile isJsonWs =
        subRange (cleanText raw.data) s e) :
    ∃ t, extractJson raw = some t ∧ isToolJson t.data = true ∧
      t.data.dropWhile isJsonWs = subRange (cleanText raw.data) s e := by
  have hne : extractJson raw ≠ none := by
    intro h0
    simp only [extractJson] at h0
    cases h2 : outerScan (cleanText raw.data) (closingIndices (cleanText raw.data)) with
    | some t2 => rw [h2] at h0; cases h0
    | none =>
      exact outerScan_ne_none (cleanText raw.data) s e hse he hacc hbal _
        (mem_closingIndices _ e he hclose) h2
  cases h : extractJson raw with
  | none => exact absurd h hne
  | some t =>
    obtain ⟨i0, e0, hle, helen, hchar, ht, htool⟩ := extractJson_some_spec raw t h
    refine ⟨t, rfl, htool, ?_⟩
    rw [ht]
    exact huniq e0 helen hchar i0 hle (by rw [← ht]; exact htool)

/-- C1 witness: the theorem applied to a concrete raw output with prose
both before and after the unique tool object (the object spans positions 3
to 24 of the cleaned text). -/
theorem extractJson_unique_tool_object_witness :
    ∃ t, extractJson rawC1w = some t ∧ isToolJson t.data = true ∧
      t.data.dropWhile isJsonWs = subRange (cleanText rawC1w.data) 3 24 :=
  extractJson_unique_tool_object rawC1w 3 24 (by decide) (by decide) (by decide)
    (by decide) (by decide) (by decide)

/-- C2: For every raw model output whose cleaned text has no substring that
parses as a JSON value with a truthy `tool` field, extraction returns none;
and when the first endpoint succeeds with such a reply, the orchestrator
returns the raw text verbatim after making only that one model call. -/
theorem extractJson_none_and_verbatim_reply :
    (∀ raw : String,
      (∀ j, j < (cleanText raw.data).length → ∀ i, i ≤ j →
        isToolJson (subRange (cleanText raw.data) i j) = false) →
      extractJson raw = none)
  ∧ (∀ (env : AgentEnv) (msg : String) (uid : Int) (c : String),
      (env.behav "mistralai/Mixtral-8x7B-Instruct-v0.1").first msg = .ok (some c) →
      (∀ j, j < (cleanText c.data).length → ∀ i, i ≤ j →
        isToolJson (subRange (cleanText c.data) i j) = false) →
      generateAIResponse env msg uid =
        ([.firstCall "mistralai/Mixtral-8x7B-Instruct-v0.1"], some c)) := by
  constructor
  · exact fun raw h => extractJson_eq_none_of_no_candidate raw h
  · intro env msg uid c h1 h2
    have hex : extractJson c = none := extractJson_eq_none_of_no_candidate c h2
    simp only [generateAIResponse, modelPriorityList, genLoop, tryModel, h1, hex,
      Option.getD_some]

/-- C2 witness: the extraction half on a concrete chat reply without JSON,
and the orchestrator half on a concrete environment. -/
theorem extractJson_none_and_verbatim_reply_witness :
    extractJson "just chatting, no tools needed" = none ∧
    generateAIResponse envC2w "hi" 1 =
      ([.firstCall "mistralai/Mixtral-8x7B-Instruct-v0.1"], some "hello") :=
  ⟨extractJson_none_and_verbatim_reply.1 _ (by decide),
   extractJson_none_and_verbatim_reply.2 envC2w "hi" 1 "hello" rfl (by decide)⟩

/-- Helper for C3: one loop iteration either continues (`none`) or returns
a string, provided that endpoint's summary call never succeeds with absent
content. -/
theorem tryModel_returns_some_string (env : AgentEnv) (msg : String) (uid : Int) (m : String)
    (hs : ∀ tr, (env.behav m).summary tr ≠ .ok none) :
    (tryModel env msg uid m).2 = none ∨ ∃ s, (tryModel env msg uid m).2 = some (some s) := by
  unfold tryModel
  cases h1 : (env.behav m).first msg with
  | error e => left; rfl
  | ok co =>
    dsimp only
    cases h2 : extractJson (co.getD "") with
    | none => right; exact ⟨co.getD "", rfl⟩
    | some j =>
      dsimp only
      cases h3 : Json.parseStr j.data with
      | none => right; exact ⟨co.getD "", rfl⟩
      | some tc =>
        dsimp only
        by_cases h4 : isValidToolCall tc = true
        · rw [if_pos h4]
          cases h5 : dispatchToolCall env.tools env.mcpConnected env.mcpNames
              (toolNameOf tc) (toolArgsOf tc) uid with
          | mk de out =>
            cases out with
            | error e => right; exact ⟨co.getD "", rfl⟩
            | ok ux =>
              cases ux with
              | shortCircuit mm => right; exact ⟨mm, rfl⟩
              | toolResult tr =>
                dsimp only
                cases h6 : (env.behav m).summary tr with
                | error e => right; exact ⟨co.getD "", rfl⟩
                | ok c2 =>
                  cases c2 with
                  | none => exact absurd h6 (hs tr)
                  | some s => right; exact ⟨s, rfl⟩
        · rw [if_neg h4]
          right; exact ⟨co.getD "", rfl⟩

/-- C3 counterexample: with the endpoint succeeding, a tool call executed,
and the summary response carrying no message content, `generateAIResponse`
returns JavaScript `undefined` (modelled as `none`) rather than a string:
the return expression `finalResponse.choices[0]?.message?.content` has no
fallback. -/
theorem generateAIResponse_can_return_undefined :
    (generateAIResponse envC3cex "book me a trip" 1).2 = none := by rfl

/-- C3 (amended): `generateAIResponse` never propagates an exception — every
environment yields a returned value — and that value is a string (an
apology, a fixed message, or model text) in every case except the one where
a summary model call succeeds with absent message content, excluded here by
hypothesis. -/
theorem generateAIResponse_no_throw_returns_string (env : AgentEnv) (msg : String) (uid : Int)
    (hs : ∀ m tr, (env.behav m).summary tr ≠ .ok none) :
    ∃ s, (generateAIResponse env msg uid).2 = some s := by
  suffices h : ∀ L, ∃ s, (genLoop env msg uid L).2 = some s from h modelPriorityList
  intro L
  induction L with
  | nil => exact ⟨apologyMsg, rfl⟩
  | cons m rest ih =>
    rw [genLoop]
    cases h1 : tryModel env msg uid m with
    | mk e o =>
      cases o with
      | none => simpa using ih
      | some r =>
        rcases tryModel_returns_some_string env msg uid m (hs m) with hnone | ⟨s, hsome⟩
        · rw [h1] at hnone; cases hnone
        · rw [h1] at hsome
          simp only at hsome
          cases hsome
          exact ⟨s, rfl⟩

/-- C3 (amended) witness: a concrete environment whose calls all throw. -/
theorem generateAIResponse_no_throw_returns_string_witness :
    ∃ s, (generateAIResponse envC3w "hello" 1).2 = some s :=
  generateAIResponse_no_throw_returns_string envC3w "hello" 1
    (fun _ _ h => Except.noConfusion h)

/-- Helper for C4: when every listed endpoint's first call throws, the loop
falls through to the fixed apology. -/
theorem genLoop_apology_of_all_fail (env : AgentEnv) (msg : String) (uid : Int) :
    ∀ L : List String, (∀ m, m ∈ L → ∃ err, (env.behav m).first msg = .error err) →
      (genLoop env msg uid L).2 = some apologyMsg := by
  intro L
  induction L with
  | nil => intro _; rfl
  | cons m rest ih =>
    intro hall
    obtain ⟨err, herr⟩ := hall m (List.mem_cons_self m rest)
    have htm : tryModel env msg uid m = ([.firstCall m], none) := by
      unfold tryModel
      rw [herr]
    rw [genLoop, htm]
    simpa using ih (fun m2 hm2 => hall m2 (List.mem_cons_of_mem m hm2))

/-- C4: when every endpoint in the priority list fails, the orchestrator
returns exactly the fixed generic apology (and, being a total function of
its environment, never raises); when the first endpoint fails and the
second succeeds with a plain reply, the second endpoint's reply is
returned and the first failure is never surfaced. -/
theorem generateAIResponse_fallback_behavior (env : AgentEnv) (msg : String) (uid : Int) :
    ((∀ m, m ∈ modelPriorityList → ∃ err, (env.behav m).first msg = .error err) →
      (generateAIResponse env msg uid).2 = some apologyMsg)
  ∧ (∀ c err,
      (env.behav "mistralai/Mixtral-8x7B-Instruct-v0.1").first msg = .error err →
      (env.behav "NousResearch/Hermes-2-Pro-Mistral-7B").first msg = .ok (some c) →
      extractJson c = none →
      (generateAIResponse env msg uid).2 = some c) := by
  constructor
  · exact fun h => genLoop_apology_of_all_fail env msg uid modelPriorityList h
  · intro c err h1 h2 hex
    simp only [generateAIResponse, modelPriorityList, genLoop, tryModel, h1, h2, hex,
      Option.getD_some]

/-- C4 witness: the apology on an all-failing environment and the untouched
second reply on a first-fails environment. -/
theorem generateAIResponse_fallback_behavior_witness :
    (generateAIResponse envC4all "hi" 1).2 = some apologyMsg ∧
    (generateAIResponse envC4two "hi" 1).2 = some "plain reply" :=
  ⟨(generateAIResponse_fallback_behavior envC4all "hi" 1).1 (fun _ _ => ⟨"boom", rfl⟩),
   (generateAIResponse_fallback_behavior envC4two "hi" 1).2 "plain reply" "boom" rfl rfl
     (by decide)⟩

/-- C5 counterexample: after a failed handshake the stored client is still
absent, so a re-entry to the initializer dials the subprocess again — the
guard `if (mcpClient) return mcpClient` does not record failed attempts,
contradicting the claim that no further connection attempts can occur. -/
theorem connectToMcpServer_redials_after_failure :
    (connectToMcpServer mcpEnvFail mcpInitState).1.clientSet = false ∧
    (connectToMcpServer mcpEnvFail ((connectToMcpServer mcpEnvFail mcpInitState).1)).2 = true :=
  ⟨rfl, rfl⟩

/-- C5 (amended): re-entry after a successful connection returns the stored
state without re-dialing; a handshake failure (including timeout) leaves
the state unchanged — client unset, discovered tool list unchanged, so the
merged registry holds only built-ins — but does not mark the attempt, and a
call in the unconnected state dials.  (The module invokes the initializer
exactly once at load, so no second attempt occurs in the program itself.) -/
theorem connectToMcpServer_reentry_and_failure (env : McpConnEnv) (st : McpState) :
    (st.clientSet = true → connectToMcpServer env st = (st, false))
  ∧ (∀ err, env.handshake = .error err →
      (connectToMcpServer env st).1 = st ∧
      (st.clientSet = false → (connectToMcpServer env st).2 = true)) := by
  constructor
  · intro h
    unfold connectToMcpServer
    rw [if_pos h]
  · intro err herr
    unfold connectToMcpServer
    by_cases h : st.clientSet = true
    · rw [if_pos h]
      exact ⟨rfl, fun hc => by rw [h] at hc; cases hc⟩
    · rw [if_neg h, herr]
      exact ⟨rfl, fun _ => rfl⟩

/-- C5 (amended) witness: the connected state is returned unchanged without
dialing, and a concrete failed handshake leaves the empty state while
dialing. -/
theorem connectToMcpServer_reentry_and_failure_witness :
    connectToMcpServer mcpEnvOk mcpStConnected = (mcpStConnected, false) ∧
    (connectToMcpServer mcpEnvFail mcpInitState).1 = mcpInitState ∧
    (connectToMcpServer mcpEnvFail mcpInitState).2 = true :=
  ⟨(connectToMcpServer_reentry_and_failure mcpEnvOk mcpStConnected).1 rfl,
   ((connectToMcpServer_reentry_and_failure mcpEnvFail mcpInitState).2 _ rfl).1,
   ((connectToMcpServer_reentry_and_failure mcpEnvFail mcpInitState).2 _ rfl).2 rfl⟩

theorem jsLength_append (a b : String) : jsLength (a ++ b) = jsLength a + jsLength b := by
  show (a.data ++ b.data).length = a.data.length + b.data.length
  exact List.length_append a.data b.data

theorem jsLength_jsTake (s : String) (n : Nat) :
    jsLength (jsTake s n) = min n (jsLength s) := by
  show (s.data.take n).length = min n s.data.length
  exact List.length_take n s.data

theorem ne_empty_of_jsLength_pos (s : String) (h : 0 < jsLength s) : s ≠ "" := by
  intro h0
  rw [h0] at h
  cases h

/-- Shared shape of the external-dispatch branch: with a non-built-in name,
a connected client and a registered name, the switch runs the MCP path. -/
theorem dispatchToolCall_mcp (tenv : ToolEnv) (names : List String)
    (tool : String) (args : Json) (uid : Int)
    (hb : tool ∉ builtinToolNames)
    (hmem : names.contains tool = true) :
    dispatchToolCall tenv true names tool args uid =
      (match transformArgs tool args with
       | .error e => ([], .ok (.toolResult (mcpErrText tool e)))
       | .ok ta =>
         match tenv.mcpCallTool tool ta with
         | .error e => ([.mcpCall tool ta], .ok (.toolResult (mcpErrText tool e)))
         | .ok parts =>
           ([.mcpCall tool ta], .ok (.toolResult (truncateToolResult (joinParts parts))))) := by
  simp only [builtinToolNames, List.mem_cons, List.not_mem_nil, or_false, not_or] at hb
  obtain ⟨h1, h2, h3, h4⟩ := hb
  unfold dispatchToolCall
  rw [if_neg h1, if_neg h2, if_neg h3, if_neg h4, if_pos (by simpa using hmem)]

/-- Shared shape of the unknown-tool branch: with a non-built-in name and
no connected-and-registered external match, the switch falls to the fixed
message. -/
theorem dispatchToolCall_unknown (tenv : ToolEnv) (conn : Bool) (names : List String)
    (tool : String) (args : Json) (uid : Int)
    (hb : tool ∉ builtinToolNames)
    (hcond : (conn && names.contains tool) = false) :
    dispatchToolCall tenv conn names tool args uid =
      ([], .ok (.shortCircuit unknownToolMsg)) := by
  simp only [builtinToolNames, List.mem_cons, List.not_mem_nil, or_false, not_or] at hb
  obtain ⟨h1, h2, h3, h4⟩ := hb
  unfold dispatchToolCall
  rw [if_neg h1, if_neg h2, if_neg h3, if_neg h4,
    if_neg (by
      intro hc
      rw [Bool.and_eq_true] at hc
      rw [hc.1, hc.2] at hcond
      exact absurd hcond (by decide))]

/-- C6 counterexample: for a 4001-character pre-truncation result, the
truncated text fed onward is 4044 characters (4000-character prefix plus
the 44-character marker), which exceeds the pre-truncation length. -/
theorem truncateToolResult_exceeds_input_length :
    4000 < jsLength bigToolResult ∧
    jsLength bigToolResult < jsLength (truncateToolResult bigToolResult) := by
  have hlen : jsLength bigToolResult = 4001 := by
    show (List.replicate 4001 'a').length = 4001
    exact List.length_replicate 4001 'a'
  have hgt : 4000 < jsLength bigToolResult := by omega
  refine ⟨hgt, ?_⟩
  rw [truncateToolResult, if_pos ⟨ne_empty_of_jsLength_pos _ (by omega), hgt⟩]
  rw [jsLength_append, jsLength_jsTake, hlen]
  have hm : jsLength truncMarker = 44 := by decide
  rw [hm]
  omega

/-- C6 (amended): an external tool text result longer than 4000 characters
is fed to the summary turn as the 4000-character prefix with the marker
appended; the fed text is exactly 4044 characters long — so it never
exceeds 4044, but it does exceed the pre-truncation length whenever that
lies strictly between 4000 and 4044. -/
theorem dispatch_mcp_truncation (tenv : ToolEnv) (names : List String) (tool : String)
    (args ta : Json) (uid : Int) (parts : List McpPart)
    (hb : tool ∉ builtinToolNames)
    (hmem : names.contains tool = true)
    (hta : transformArgs tool args = .ok ta)
    (hcall : tenv.mcpCallTool tool ta = .ok parts)
    (hlen : 4000 < jsLength (joinParts parts)) :
    dispatchToolCall tenv true names tool args uid =
      ([.mcpCall tool ta],
       .ok (.toolResult (jsTake (joinParts parts) 4000 ++ truncMarker)))
    ∧ jsLength (jsTake (joinParts parts) 4000 ++ truncMarker) = 4044 := by
  have hm : jsLength truncMarker = 44 := by decide
  have h44 : jsLength (jsTake (joinParts parts) 4000 ++ truncMarker) = 4044 := by
    rw [jsLength_append, jsLength_jsTake, hm]
    omega
  refine ⟨?_, h44⟩
  simp only [dispatchToolCall_mcp tenv names tool args uid hb hmem, hta, hcall]
  rw [truncateToolResult, if_pos ⟨ne_empty_of_jsLength_pos _ (by omega), hlen⟩]

/-- C6 (amended) witness: a concrete 4001-character MCP result. -/
theorem dispatch_mcp_truncation_witness :
    dispatchToolCall tenvC6w true ["big-tool"] "big-tool" (.obj []) 1 =
      ([.mcpCall "big-tool" (.obj [])],
       .ok (.toolResult (jsTake (joinParts partsC6w) 4000 ++ truncMarker)))
    ∧ jsLength (jsTake (joinParts partsC6w) 4000 ++ truncMarker) = 4044 :=
  dispatch_mcp_truncation tenvC6w ["big-tool"] "big-tool" (.obj []) (.obj []) 1 partsC6w
    (by decide) (by decide) rfl rfl
    (by
      have h : joinParts partsC6w = bigToolResult := rfl
      rw [h]
      show 4000 < (List.replicate 4001 'a').length
      rw [List.length_replicate]
      omega)

/-- C7: for a validated tool call whose name matches no built-in tool,
the external path runs if and only if the client is connected and the name
is in the discovered registry (then the switch always produces a tool
result, never a fatal error, and only then can an MCP call be issued); any
other unmatched name yields exactly the fixed unknown-action message. -/
theorem dispatch_external_iff_connected (tenv : ToolEnv) (conn : Bool) (names : List String)
    (tool : String) (args : Json) (uid : Int)
    (hb : tool ∉ builtinToolNames) :
    ((conn = true ∧ names.contains tool = true) →
      ∃ s, (dispatchToolCall tenv conn names tool args uid).2 = .ok (.toolResult s))
  ∧ (¬(conn = true ∧ names.contains tool = true) →
      dispatchToolCall tenv conn names tool args uid =
        ([], .ok (.shortCircuit unknownToolMsg)))
  ∧ (∀ n a, Effect.mcpCall n a ∈ (dispatchToolCall tenv conn names tool args uid).1 →
      conn = true ∧ names.contains tool = true) := by
  by_cases hcond : conn = true ∧ names.contains tool = true
  · obtain ⟨hc, hmem⟩ := hcond
    subst hc
    have hmain := dispatchToolCall_mcp tenv names tool args uid hb hmem
    refine ⟨fun _ => ?_, fun hn => absurd ⟨rfl, hmem⟩ hn, fun n a _ => ⟨rfl, hmem⟩⟩
    cases hta : transformArgs tool args with
    | error e =>
      simp only [hmain, hta]
      exact ⟨mcpErrText tool e, rfl⟩
    | ok ta =>
      cases hcall : tenv.mcpCallTool tool ta with
      | error e =>
        simp only [hmain, hta, hcall]
        exact ⟨mcpErrText tool e, rfl⟩
      | ok parts =>
        simp only [hmain, hta, hcall]
        exact ⟨truncateToolResult (joinParts parts), rfl⟩
  · have hfalse : (conn && names.contains tool) = false := by
      cases hc : conn with
      | false => rfl
      | true =>
        cases hm : names.contains tool with
        | false => rfl
        | true => exact absurd ⟨hc, hm⟩ hcond
    have hmain := dispatchToolCall_unknown tenv conn names tool args uid hb hfalse
    refine ⟨fun h => absurd h hcond, fun _ => hmain, fun n a hmem2 => ?_⟩
    rw [hmain] at hmem2
    cases hmem2

/-- C7 witness: a discovered calendar tool dispatches externally when
connected; the same name yields the fixed message when unconnected. -/
theorem dispatch_external_iff_connected_witness :
    (∃ s, (dispatchToolCall tenvC7w true ["list-events"] "list-events" (.obj []) 1).2 =
      .ok (.toolResult s)) ∧
    dispatchToolCall tenvC7w false ["list-events"] "list-events" (.obj []) 1 =
      ([], .ok (.shortCircuit unknownToolMsg)) :=
  ⟨(dispatch_external_iff_connected tenvC7w true ["list-events"] "list-events" (.obj []) 1
      (by decide)).1 ⟨rfl, by decide⟩,
   (dispatch_external_iff_connected tenvC7w false ["list-events"] "list-events" (.obj []) 1
      (by decide)).2.1 (by simp)⟩

/-- Shared shape of the booking-id guard: a `bookingId` that `parseInt`
cannot parse short-circuits both booking tools to their fixed messages
without any executor effect. -/
theorem dispatchToolCall_invalid_booking (tenv : ToolEnv) (conn : Bool) (names : List String)
    (args : Json) (uid : Int)
    (h6 : jsParseIntOpt (jsGet args "bookingId") = none) :
    dispatchToolCall tenv conn names "get_booking_details" args uid =
      ([], .ok (.shortCircuit invalidBookingMsgCheck))
    ∧ dispatchToolCall tenv conn names "cancel_booking" args uid =
      ([], .ok (.shortCircuit invalidBookingMsgCancel)) := by
  constructor
  · unfold dispatchToolCall
    rw [if_neg (by decide), if_pos rfl, h6]
  · unfold dispatchToolCall
    rw [if_neg (by decide), if_neg (by decide), if_pos rfl, h6]

/-- C8: a validated `get_booking_details` or `cancel_booking` call whose
`bookingId` has no parseable number (for example the string "abc") makes
the orchestrator return the fixed valid-booking-ID message after the single
initial model call: no tool executor runs and no summary model call is
made. -/
theorem generateAIResponse_invalid_booking (env : AgentEnv) (msg : String) (uid : Int)
    (c j : String) (tc : Json)
    (h1 : (env.behav "mistralai/Mixtral-8x7B-Instruct-v0.1").first msg = .ok (some c))
    (h2 : extractJson c = some j)
    (h3 : Json.parseStr j.data = some tc)
    (h4 : isValidToolCall tc = true)
    (h5 : toolNameOf tc = "get_booking_details" ∨ toolNameOf tc = "cancel_booking")
    (h6 : jsParseIntOpt (jsGet (toolArgsOf tc) "bookingId") = none) :
    generateAIResponse env msg uid =
      ([.firstCall "mistralai/Mixtral-8x7B-Instruct-v0.1"],
       some (if toolNameOf tc = "get_booking_details" then invalidBookingMsgCheck
             else invalidBookingMsgCancel)) := by
  have hd := dispatchToolCall_invalid_booking env.tools env.mcpConnected env.mcpNames
    (toolArgsOf tc) uid h6
  rcases h5 with h5 | h5
  · simp only [generateAIResponse, modelPriorityList, genLoop, tryModel, h1,
      Option.getD_some, h2, h3, h4, if_true, h5, hd.1, if_pos rfl]
  · have hne : ¬(toolNameOf tc = "get_booking_details") := by
      rw [h5]; decide
    simp only [generateAIResponse, modelPriorityList, genLoop, tryModel, h1,
      Option.getD_some, h2, h3, h4, if_true, h5, hd.2, if_neg hne]
    rw [if_neg (by decide)]

/-- C8 witness: the concrete tool call with bookingId "abc". -/
theorem generateAIResponse_invalid_booking_witness :
    generateAIResponse envC8w "check my booking abc" 1 =
      ([.firstCall "mistralai/Mixtral-8x7B-Instruct-v0.1"],
       some (if toolNameOf (Json.obj
          [("tool", .str "get_booking_details"),
           ("args", .obj [("bookingId", .str "abc")])]) = "get_booking_details"
         then invalidBookingMsgCheck else invalidBookingMsgCancel)) :=
  generateAIResponse_invalid_booking envC8w "check my booking abc" 1
    "\x7b\"tool\":\"get_booking_details\",\"args\":\x7b\"bookingId\":\"abc\"\x7d\x7d"
    "\x7b\"tool\":\"get_booking_details\",\"args\":\x7b\"bookingId\":\"abc\"\x7d\x7d"
    (Json.obj
      [("tool", .str "get_booking_details"),
       ("args", .obj [("bookingId", .str "abc")])])
    rfl (by decide) rfl rfl (Or.inl rfl) rfl

/-- C9 counterexample: the claim predicts that a `bookingId` beginning with
digits followed by non-digits hands the executor the decimal digit prefix;
for "0x10" that prefix is 0, but `parseInt` reads the string as hexadecimal
and the executor is invoked with 16. -/
theorem bookingId_hex_parse_counterexample :
    dispatchToolCall tenvC9 false [] "get_booking_details"
        (.obj [("bookingId", .str "0x10")]) 1
      = ([.execGetBooking 16], .ok (.toolResult "ok"))
    ∧ claimLeadingDigitsVal "0x10" = some 0
    ∧ ¬(16 : Int) = 0 :=
  ⟨rfl, rfl, by decide⟩

/-- C9 (amended): the booking-id validation accepts any value whose
JavaScript `parseInt` conversion yields a number — leading decimal digits
give the decimal prefix, but strings beginning `0x`/`0X` parse as
hexadecimal — and the executor is invoked with exactly that `parseInt`
value; only values `parseInt` cannot parse yield the valid-booking-ID
message. -/
theorem dispatch_booking_id_parseInt (tenv : ToolEnv) (conn : Bool) (names : List String)
    (args : Json) (uid : Int) :
    (∀ n, jsParseIntOpt (jsGet args "bookingId") = some n →
      (dispatchToolCall tenv conn names "get_booking_details" args uid).1 =
        [.execGetBooking n] ∧
      (dispatchToolCall tenv conn names "cancel_booking" args uid).1 =
        [.execCancel n])
  ∧ (jsParseIntOpt (jsGet args "bookingId") = none →
      dispatchToolCall tenv conn names "get_booking_details" args uid =
        ([], .ok (.shortCircuit invalidBookingMsgCheck)) ∧
      dispatchToolCall tenv conn names "cancel_booking" args uid =
        ([], .ok (.shortCircuit invalidBookingMsgCancel))) := by
  constructor
  · intro n hn
    constructor
    · unfold dispatchToolCall
      rw [if_neg (by decide), if_pos rfl, hn]
      dsimp only
      cases tenv.getBookingDetails n <;> rfl
    · unfold dispatchToolCall
      rw [if_neg (by decide), if_neg (by decide), if_pos rfl, hn]
      dsimp only
      cases tenv.cancelTicket n <;> rfl
  · exact fun h => dispatchToolCall_invalid_booking tenv conn names args uid h

/-- C9 (amended) witness: "12abc" reaches the executor as 12 and "abc"
short-circuits. -/
theorem dispatch_booking_id_parseInt_witness :
    (dispatchToolCall tenvC9 false [] "get_booking_details"
        (.obj [("bookingId", .str "12abc")]) 1).1 = [.execGetBooking 12] ∧
    dispatchToolCall tenvC9 false [] "get_booking_details"
        (.obj [("bookingId", .str "abc")]) 1 =
      ([], .ok (.shortCircuit invalidBookingMsgCheck)) :=
  ⟨((dispatch_booking_id_parseInt tenvC9 false []
      (.obj [("bookingId", .str "12abc")]) 1).1 12 rfl).1,
   ((dispatch_booking_id_parseInt tenvC9 false []
      (.obj [("bookingId", .str "abc")]) 1).2 rfl).1⟩

/-- C10: the `book_ticket` branch performs no argument validation: for any
argument object, the executor is invoked once with the model-supplied
`tripId`, `pickupId`, `dropId` and `amount` values passed through unchanged
(possibly absent), with the caller id in second position. -/
theorem dispatch_book_ticket_no_validation (tenv : ToolEnv) (conn : Bool)
    (names : List String) (args : Json) (uid : Int) :
    dispatchToolCall tenv conn names "book_ticket" args uid =
      ([.execBookTicket (jsGet args "tripId") uid (jsGet args "pickupId")
          (jsGet args "dropId") (jsGet args "amount")],
       match tenv.bookTicket (jsGet args "tripId") uid (jsGet args "pickupId")
          (jsGet args "dropId") (jsGet args "amount") with
       | .ok r => .ok (.toolResult r)
       | .error e => .error e) := by
  unfold dispatchToolCall
  rw [if_neg (by decide), if_neg (by decide), if_neg (by decide), if_pos rfl]
  dsimp only
  cases tenv.bookTicket (jsGet args "tripId") uid (jsGet args "pickupId")
    (jsGet args "dropId") (jsGet args "amount") <;> rfl

end TravelPoint
